import Mathlib

/-! Shallow embedding of the OTPX HOTP/TOTP core (src/index.ts, class OTPX,
methods `hotp` and `totp`) together with the cryptographic primitives the
code obtains from Node's `crypto` module (`createHmac` with SHA1 / SHA256 /
SHA512).  Bytes are `Nat` values below 256, byte strings are `List Nat`,
machine words are `Nat` reduced modulo 2^32 or 2^64 where the corresponding
JavaScript / hash-standard arithmetic wraps.  The JavaScript counter
encoding loop of `hotp` uses the signed 32-bit operators `&` and `>>=`,
which we model exactly (`toInt32`, `jsAnd255`, `jsShr8`).
-/

namespace Otpx

/-! Word-level helpers. -/

/-- Reduce modulo 2^32 (JavaScript / SHA 32-bit wrap-around). -/
def mask32 (x : Nat) : Nat := x % 4294967296

/-- Reduce modulo 2^64 (SHA-512 64-bit wrap-around). -/
def mask64 (x : Nat) : Nat := x % 18446744073709551616

/-- Rotate a 32-bit word left by `n` bits (0 < n < 32). -/
def rotl32 (n x : Nat) : Nat := mask32 (x <<< n) ||| (x >>> (32 - n))

/-- Rotate a 32-bit word right by `n` bits (0 < n < 32). -/
def rotr32 (n x : Nat) : Nat := (x >>> n) ||| mask32 (x <<< (32 - n))

/-- Rotate a 64-bit word right by `n` bits (0 < n < 64). -/
def rotr64 (n x : Nat) : Nat := (x >>> n) ||| mask64 (x <<< (64 - n))

/-- Big-endian bytes of `v`, exactly `n` bytes, most significant first. -/
def beBytes : Nat → Nat → List Nat
  | 0, _ => []
  | n + 1, v => beBytes n (v >>> 8) ++ [v % 256]

/-- Group a byte list into big-endian 32-bit words (leftover bytes dropped;
padded hash input is always a multiple of 4 bytes). -/
def bytesToWords32 : List Nat → List Nat
  | a :: b :: c :: d :: rest =>
      (((a <<< 8 ||| b) <<< 8 ||| c) <<< 8 ||| d) :: bytesToWords32 rest
  | _ => []

/-- Group a byte list into big-endian 64-bit words. -/
def bytesToWords64 : List Nat → List Nat
  | a :: b :: c :: d :: e :: f :: g :: h :: rest =>
      (((((((a <<< 8 ||| b) <<< 8 ||| c) <<< 8 ||| d) <<< 8 ||| e) <<< 8
          ||| f) <<< 8 ||| g) <<< 8 ||| h) :: bytesToWords64 rest
  | _ => []

/-- Serialize words back to bytes, `w` bytes per word, big-endian. -/
def wordsToBytes (w : Nat) : List Nat → List Nat
  | [] => []
  | x :: xs => beBytes w x ++ wordsToBytes w xs

/-- Merkle–Damgard padding: append 0x80, zero bytes, then the bit length in
a big-endian `lenBytes`-byte field, reaching a multiple of `blockSize`. -/
def padMessage (blockSize lenBytes : Nat) (msg : List Nat) : List Nat :=
  let L := msg.length
  let padZeros := (blockSize - ((L + 1 + lenBytes) % blockSize)) % blockSize
  msg ++ 128 :: (List.replicate padZeros 0 ++ beBytes lenBytes (L * 8))

/-- Split into `n`-byte chunks, fuel-driven (input length is a multiple of
`n` for padded messages). -/
def chunksAux (n : Nat) : Nat → List Nat → List (List Nat)
  | 0, _ => []
  | k + 1, l => l.take n :: chunksAux n k (l.drop n)

/-- Split a list into `n`-byte chunks. -/
def chunks (n : Nat) (l : List Nat) : List (List Nat) :=
  chunksAux n (l.length / n) l

/-! The SHA-1 hash (FIPS 180-4), as used by Node crypto. -/

/-- SHA-1 round function: Ch, Parity, Maj, Parity by round quarter. -/
def sha1F (t b c d : Nat) : Nat :=
  if t < 20 then (b &&& c) ||| ((b ^^^ 4294967295) &&& d)
  else if t < 40 then b ^^^ c ^^^ d
  else if t < 60 then (b &&& c) ||| (b &&& d) ||| (c &&& d)
  else b ^^^ c ^^^ d

/-- SHA-1 round constants. -/
def sha1K (t : Nat) : Nat :=
  if t < 20 then 1518500249
  else if t < 40 then 1859775393
  else if t < 60 then 2400959708
  else 3395469782

/-- Extend the 16 message words by `k` more schedule words.  The word list
is carried newest-first, so `W[t-3]` is at index 2, ..., `W[t-16]` at
index 15; the finished schedule is reversed back to oldest-first. -/
def sha1ScheduleAux : Nat → List Nat → List Nat
  | 0, ws => ws.reverse
  | k + 1, ws =>
      sha1ScheduleAux k
        (rotl32 1 (ws.getD 2 0 ^^^ ws.getD 7 0 ^^^
          ws.getD 13 0 ^^^ ws.getD 15 0) :: ws)

/-- The 80 SHA-1 schedule words of one 64-byte block. -/
def sha1Schedule (block : List Nat) : List Nat :=
  sha1ScheduleAux 64 (bytesToWords32 block).reverse

/-- One SHA-1 round on the state `[a, b, c, d, e]`. -/
def sha1Round (t w : Nat) (st : List Nat) : List Nat :=
  let a := st.getD 0 0
  let b := st.getD 1 0
  let c := st.getD 2 0
  let d := st.getD 3 0
  let e := st.getD 4 0
  [mask32 (rotl32 5 a + sha1F t b c d + e + sha1K t + w), a, rotl32 30 b, c, d]

/-- Run the SHA-1 rounds over the schedule words, starting at round `t`. -/
def sha1Rounds : Nat → List Nat → List Nat → List Nat
  | _, [], st => st
  | t, w :: ws, st => sha1Rounds (t + 1) ws (sha1Round t w st)

/-- SHA-1 initial hash value. -/
def sha1H0 : List Nat :=
  [1732584193, 4023233417, 2562383102, 271733878, 3285377520]

/-- SHA-1 compression of one 64-byte block into the 5-word state. -/
def sha1Compress (h block : List Nat) : List Nat :=
  let st := sha1Rounds 0 (sha1Schedule block) h
  [mask32 (h.getD 0 0 + st.getD 0 0), mask32 (h.getD 1 0 + st.getD 1 0),
   mask32 (h.getD 2 0 + st.getD 2 0), mask32 (h.getD 3 0 + st.getD 3 0),
   mask32 (h.getD 4 0 + st.getD 4 0)]

/-- SHA-1 of a byte string: 20-byte digest. -/
def sha1 (msg : List Nat) : List Nat :=
  wordsToBytes 4 ((chunks 64 (padMessage 64 8 msg)).foldl sha1Compress sha1H0)

/-! The SHA-256 hash (FIPS 180-4). -/

/-- SHA-256 round constants (fractional parts of cube roots of the first
64 primes, 32 bits each). -/
def sha256K : List Nat :=
  [1116352408, 1899447441, 3049323471, 3921009573, 961987163, 1508970993,
   2453635748, 2870763221, 3624381080, 310598401, 607225278, 1426881987,
   1925078388, 2162078206, 2614888103, 3248222580, 3835390401, 4022224774,
   264347078, 604807628, 770255983, 1249150122, 1555081692, 1996064986,
   2554220882, 2821834349, 2952996808, 3210313671, 3336571891, 3584528711,
   113926993, 338241895, 666307205, 773529912, 1294757372, 1396182291,
   1695183700, 1986661051, 2177026350, 2456956037, 2730485921, 2820302411,
   3259730800, 3345764771, 3516065817, 3600352804, 4094571909, 275423344,
   430227734, 506948616, 659060556, 883997877, 958139571, 1322822218,
   1537002063, 1747873779, 1955562222, 2024104815, 2227730452, 2361852424,
   2428436474, 2756734187, 3204031479, 3329325298]

/-- SHA-256 initial hash value. -/
def sha256H0 : List Nat :=
  [1779033703, 3144134277, 1013904242, 2773480762,
   1359893119, 2600822924, 528734635, 1541459225]

/-- Extend the 16 message words by `k` more SHA-256 schedule words; the
word list is carried newest-first (`W[t-2]` at index 1, ..., `W[t-16]` at
index 15) and reversed back at the end. -/
def sha256ScheduleAux : Nat → List Nat → List Nat
  | 0, ws => ws.reverse
  | k + 1, ws =>
      let w15 := ws.getD 14 0
      let w2 := ws.getD 1 0
      let s0 := rotr32 7 w15 ^^^ rotr32 18 w15 ^^^ (w15 >>> 3)
      let s1 := rotr32 17 w2 ^^^ rotr32 19 w2 ^^^ (w2 >>> 10)
      sha256ScheduleAux k
        (mask32 (ws.getD 15 0 + s0 + ws.getD 6 0 + s1) :: ws)

/-- The 64 SHA-256 schedule words of one 64-byte block. -/
def sha256Schedule (block : List Nat) : List Nat :=
  sha256ScheduleAux 48 (bytesToWords32 block).reverse

/-- One SHA-256 round on the state `[a, b, c, d, e, f, g, h]`, with `kc`
the round constant and `w` the schedule word. -/
def sha256Round (kc w : Nat) (st : List Nat) : List Nat :=
  let a := st.getD 0 0
  let b := st.getD 1 0
  let c := st.getD 2 0
  let d := st.getD 3 0
  let e := st.getD 4 0
  let f := st.getD 5 0
  let g := st.getD 6 0
  let h := st.getD 7 0
  let S1 := rotr32 6 e ^^^ rotr32 11 e ^^^ rotr32 25 e
  let ch := (e &&& f) ^^^ ((e ^^^ 4294967295) &&& g)
  let t1 := mask32 (h + S1 + ch + kc + w)
  let S0 := rotr32 2 a ^^^ rotr32 13 a ^^^ rotr32 22 a
  let mj := (a &&& b) ^^^ (a &&& c) ^^^ (b &&& c)
  let t2 := mask32 (S0 + mj)
  [mask32 (t1 + t2), a, b, c, mask32 (d + t1), e, f, g]

/-- Run the SHA-256 rounds, consuming the schedule words and the round
constants in lockstep. -/
def sha256Rounds : List Nat → List Nat → List Nat → List Nat
  | w :: ws, kc :: ks, st => sha256Rounds ws ks (sha256Round kc w st)
  | _, _, st => st

/-- SHA-256 compression of one 64-byte block into the 8-word state. -/
def sha256Compress (h block : List Nat) : List Nat :=
  let st := sha256Rounds (sha256Schedule block) sha256K h
  [mask32 (h.getD 0 0 + st.getD 0 0), mask32 (h.getD 1 0 + st.getD 1 0),
   mask32 (h.getD 2 0 + st.getD 2 0), mask32 (h.getD 3 0 + st.getD 3 0),
   mask32 (h.getD 4 0 + st.getD 4 0), mask32 (h.getD 5 0 + st.getD 5 0),
   mask32 (h.getD 6 0 + st.getD 6 0), mask32 (h.getD 7 0 + st.getD 7 0)]

/-- SHA-256 of a byte string: 32-byte digest. -/
def sha256 (msg : List Nat) : List Nat :=
  wordsToBytes 4 ((chunks 64 (padMessage 64 8 msg)).foldl sha256Compress sha256H0)

/-! The SHA-512 hash (FIPS 180-4). -/

/-- SHA-512 round constants (fractional parts of cube roots of the first
80 primes, 64 bits each). -/
def sha512K : List Nat :=
  [4794697086780616226, 8158064640168781261, 13096744586834688815,
   16840607885511220156, 4131703408338449720, 6480981068601479193,
   10538285296894168987, 12329834152419229976, 15566598209576043074,
   1334009975649890238, 2608012711638119052, 6128411473006802146,
   8268148722764581231, 9286055187155687089, 11230858885718282805,
   13951009754708518548, 16472876342353939154, 17275323862435702243,
   1135362057144423861, 2597628984639134821, 3308224258029322869,
   5365058923640841347, 6679025012923562964, 8573033837759648693,
   10970295158949994411, 12119686244451234320, 12683024718118986047,
   13788192230050041572, 14330467153632333762, 15395433587784984357,
   489312712824947311, 1452737877330783856, 2861767655752347644,
   3322285676063803686, 5560940570517711597, 5996557281743188959,
   7280758554555802590, 8532644243296465576, 9350256976987008742,
   10552545826968843579, 11727347734174303076, 12113106623233404929,
   14000437183269869457, 14369950271660146224, 15101387698204529176,
   15463397548674623760, 17586052441742319658, 1182934255886127544,
   1847814050463011016, 2177327727835720531, 2830643537854262169,
   3796741975233480872, 4115178125766777443, 5681478168544905931,
   6601373596472566643, 7507060721942968483, 8399075790359081724,
   8693463985226723168, 9568029438360202098, 10144078919501101548,
   10430055236837252648, 11840083180663258601, 13761210420658862357,
   14299343276471374635, 14566680578165727644, 15097957966210449927,
   16922976911328602910, 17689382322260857208, 500013540394364858,
   748580250866718886, 1242879168328830382, 1977374033974150939,
   2944078676154940804, 3659926193048069267, 4368137639120453308,
   4836135668995329356, 5532061633213252278, 6448918945643986474,
   6902733635092675308, 7801388544844847127]

/-- SHA-512 initial hash value. -/
def sha512H0 : List Nat :=
  [7640891576956012808, 13503953896175478587, 4354685564936845355,
   11912009170470909681, 5840696475078001361, 11170449401992604703,
   2270897969802886507, 6620516959819538809]

/-- Extend the 16 message words by `k` more SHA-512 schedule words; the
word list is carried newest-first and reversed back at the end. -/
def sha512ScheduleAux : Nat → List Nat → List Nat
  | 0, ws => ws.reverse
  | k + 1, ws =>
      let w15 := ws.getD 14 0
      let w2 := ws.getD 1 0
      let s0 := rotr64 1 w15 ^^^ rotr64 8 w15 ^^^ (w15 >>> 7)
      let s1 := rotr64 19 w2 ^^^ rotr64 61 w2 ^^^ (w2 >>> 6)
      sha512ScheduleAux k
        (mask64 (ws.getD 15 0 + s0 + ws.getD 6 0 + s1) :: ws)

/-- The 80 SHA-512 schedule words of one 128-byte block. -/
def sha512Schedule (block : List Nat) : List Nat :=
  sha512ScheduleAux 64 (bytesToWords64 block).reverse

/-- One SHA-512 round on the state `[a, b, c, d, e, f, g, h]`, with `kc`
the round constant and `w` the schedule word. -/
def sha512Round (kc w : Nat) (st : List Nat) : List Nat :=
  let a := st.getD 0 0
  let b := st.getD 1 0
  let c := st.getD 2 0
  let d := st.getD 3 0
  let e := st.getD 4 0
  let f := st.getD 5 0
  let g := st.getD 6 0
  let h := st.getD 7 0
  let S1 := rotr64 14 e ^^^ rotr64 18 e ^^^ rotr64 41 e
  let ch := (e &&& f) ^^^ ((e ^^^ 18446744073709551615) &&& g)
  let t1 := mask64 (h + S1 + ch + kc + w)
  let S0 := rotr64 28 a ^^^ rotr64 34 a ^^^ rotr64 39 a
  let mj := (a &&& b) ^^^ (a &&& c) ^^^ (b &&& c)
  let t2 := mask64 (S0 + mj)
  [mask64 (t1 + t2), a, b, c, mask64 (d + t1), e, f, g]

/-- Run the SHA-512 rounds, consuming the schedule words and the round
constants in lockstep. -/
def sha512Rounds : List Nat → List Nat → List Nat → List Nat
  | w :: ws, kc :: ks, st => sha512Rounds ws ks (sha512Round kc w st)
  | _, _, st => st

/-- SHA-512 compression of one 128-byte block into the 8-word state. -/
def sha512Compress (h block : List Nat) : List Nat :=
  let st := sha512Rounds (sha512Schedule block) sha512K h
  [mask64 (h.getD 0 0 + st.getD 0 0), mask64 (h.getD 1 0 + st.getD 1 0),
   mask64 (h.getD 2 0 + st.getD 2 0), mask64 (h.getD 3 0 + st.getD 3 0),
   mask64 (h.getD 4 0 + st.getD 4 0), mask64 (h.getD 5 0 + st.getD 5 0),
   mask64 (h.getD 6 0 + st.getD 6 0), mask64 (h.getD 7 0 + st.getD 7 0)]

/-- SHA-512 of a byte string: 64-byte digest. -/
def sha512 (msg : List Nat) : List Nat :=
  wordsToBytes 8 ((chunks 128 (padMessage 128 16 msg)).foldl sha512Compress sha512H0)

/-! The HMAC construction (RFC 2104), as implemented by Node crypto. -/

/-- HMAC over an arbitrary hash with the given block size:
`H((K xor opad) || H((K xor ipad) || msg))`, the key hashed first when it
exceeds the block size and zero-padded to the block size. -/
def hmac (hash : List Nat → List Nat) (blockSize : Nat)
    (key msg : List Nat) : List Nat :=
  let k := if blockSize < key.length then hash key else key
  let kpad := k ++ List.replicate (blockSize - k.length) 0
  hash ((kpad.map fun b => b ^^^ 0x5C) ++
    hash ((kpad.map fun b => b ^^^ 0x36) ++ msg))

/-! The OTPX core (src/index.ts). -/

/-- The algorithm tags admitted by the TypeScript type
`"SHA1" | "SHA256" | "SHA512"` of `HotpOptions.algorithm`. -/
inductive Algorithm
  | SHA1
  | SHA256
  | SHA512

/-- Digest length in bytes of each supported algorithm. -/
def hashLength : Algorithm → Nat
  | .SHA1 => 20
  | .SHA256 => 32
  | .SHA512 => 64

/-- HMAC block size in bytes of each supported algorithm. -/
def blockLength : Algorithm → Nat
  | .SHA1 => 64
  | .SHA256 => 64
  | .SHA512 => 128

/-- The digest produced by `createHmac(algorithm, secret).update(msg)`. -/
def hmacDigest : Algorithm → List Nat → List Nat → List Nat
  | .SHA1 => hmac sha1 64
  | .SHA256 => hmac sha256 64
  | .SHA512 => hmac sha512 128

/-- JavaScript `ToInt32`: wrap an integer value into `[-2^31, 2^31)`, as the
operands of `&` and `>>` are converted.  Exact for the integer-valued
counters the code manipulates. -/
def toInt32 (x : Int) : Int := (x + 2147483648) % 4294967296 - 2147483648

/-- JavaScript `x & 0xff` (both operands converted by `ToInt32`); the result
is a byte in `[0, 256)`. -/
def jsAnd255 (x : Int) : Nat := ((toInt32 x) % 256).toNat

/-- JavaScript `x >> 8`: `ToInt32` then arithmetic (sign-propagating) shift,
which is flooring division by 256. -/
def jsShr8 (x : Int) : Int := Int.fdiv (toInt32 x) 256

/-- The counter-encoding loop of `hotp` (index.ts lines 240-245):
`for (let i = 7; i >= 0; i--) buffer[i] = t & 0xff; t >>= 8` — built here
front-to-back, so the head of the list is `buffer[0]`. -/
def counterBytesAux : Nat → Int → List Nat
  | 0, _ => []
  | n + 1, t => counterBytesAux n (jsShr8 t) ++ [jsAnd255 t]

/-- The 8-byte counter buffer `hotp` feeds to the HMAC. -/
def counterBytes (counter : Int) : List Nat := counterBytesAux 8 counter

/-- The dynamic-truncation offset: low nibble of the digest's last byte
(index.ts line 253). -/
def truncOffset (h : List Nat) : Nat := h.getD (h.length - 1) 0 &&& 15

/-- RFC 4226 dynamic truncation (index.ts lines 253-258): four bytes taken
at the offset, the first masked with `0x7F`, combined big-endian. -/
def dynamicTruncate (h : List Nat) : Nat :=
  ((h.getD (truncOffset h) 0 &&& 0x7F) <<< 24) |||
    ((h.getD (truncOffset h + 1) 0 &&& 0xFF) <<< 16) |||
    ((h.getD (truncOffset h + 2) 0 &&& 0xFF) <<< 8) |||
    (h.getD (truncOffset h + 3) 0 &&& 0xFF)

/-- Decimal digit character, `48 + d` for `d < 10`. -/
def digitChar (d : Nat) : Char := Char.ofNat (48 + d % 10)

/-- Decimal digits of `n`, most significant first; structural fuel
recursion (any `fuel > n` gives the exact digits).  Models JavaScript
`Number.prototype.toString` on the non-negative integers in play. -/
def decDigitsAux : Nat → Nat → List Char
  | 0, _ => []
  | fuel + 1, n =>
      if n < 10 then [digitChar n]
      else decDigitsAux fuel (n / 10) ++ [digitChar (n % 10)]

/-- JavaScript `code.toString()` for a non-negative integer `code`. -/
def decToString (n : Nat) : String := String.mk (decDigitsAux (n + 1) n)

/-- JavaScript `String.prototype.padStart(n, c)` for a one-character pad:
prepend copies of `c` up to length `n` (never truncates). -/
def padStart (s : String) (n : Nat) (c : Char) : String :=
  String.mk (List.replicate (n - s.length) c ++ s.data)

/-- Model of `OTPX.hotp` (index.ts lines 228-263).  The secret is the UTF-8 byte
sequence of the `secret` string argument (`Buffer.from(secret, "utf8")`);
the counter is an integer (JavaScript number), kept as `Int` because the
encoding loop applies signed 32-bit operators to it.  No validation of any
parameter is performed by the source. -/
def hotp (secret : List Nat) (counter : Int) (algorithm : Algorithm)
    (digits : Nat) : String :=
  let counterBuffer := counterBytes counter
  let hmacResult := hmacDigest algorithm secret counterBuffer
  let binary := dynamicTruncate hmacResult
  let code := binary % 10 ^ digits
  padStart (decToString code) digits '0'

/-- Model of `OTPX.totp` (index.ts lines 277-286): counter is
`Math.floor(timestamp / 1000 / period)`, then delegate to `hotp`.  For
integer inputs the JavaScript floor of the chained real divisions equals
the chained `Nat` floor divisions used here.  For `period = 0` JavaScript
yields an infinite (or NaN) counter whose 8-byte encoding is all zeros,
byte-identical to the encoding of counter `0` that `Nat` division by zero
produces here, so outputs agree there as well. -/
def totp (secret : List Nat) (algorithm : Algorithm) (digits : Nat)
    (period : Nat) (timestamp : Nat) : String :=
  hotp secret (Int.ofNat (timestamp / 1000 / period)) algorithm digits

/-- UTF-8/ASCII bytes of a test-vector secret string. -/
def asciiBytes (s : String) : List Nat := s.data.map Char.toNat

/-- The RFC 4226 test secret, ASCII "12345678901234567890". -/
def rfcSecret20 : List Nat := asciiBytes ("12345678901234567890")

/-- The RFC 6238 SHA-256 test secret (32 ASCII bytes). -/
def rfcSecret32 : List Nat := asciiBytes ("12345678901234567890123456789012")

/-- The RFC 6238 SHA-512 test secret (64 ASCII bytes). -/
def rfcSecret64 : List Nat :=
  asciiBytes ("1234567890123456789012345678901234567890123456789012345678901234")

end Otpx


namespace Otpx

set_option maxRecDepth 1000000
set_option maxHeartbeats 2000000

/-- Numeric value denoted by a decimal-digit character string, most
significant digit first. -/
def decValue (s : List Char) : Nat :=
  s.foldl (fun acc c => 10 * acc + (c.toNat - 48)) 0

/-! Digest-length facts for the three supported algorithms. -/

theorem beBytes_length : ∀ n v : Nat, (beBytes n v).length = n
  | 0, _ => rfl
  | n + 1, v => by simp [beBytes, beBytes_length n]

theorem wordsToBytes_length (w : Nat) :
    ∀ ws : List Nat, (wordsToBytes w ws).length = w * ws.length
  | [] => by simp [wordsToBytes]
  | x :: xs => by
      simp [wordsToBytes, beBytes_length, wordsToBytes_length w xs, Nat.mul_succ]
      omega

theorem sha1Compress_length (h block : List Nat) :
    (sha1Compress h block).length = 5 := rfl

theorem sha256Compress_length (h block : List Nat) :
    (sha256Compress h block).length = 8 := rfl

theorem sha512Compress_length (h block : List Nat) :
    (sha512Compress h block).length = 8 := rfl

theorem foldl_length_inv (f : List Nat → List Nat → List Nat) (k : Nat)
    (hf : ∀ h b, (f h b).length = k) :
    ∀ (bs : List (List Nat)) (h : List Nat), h.length = k →
      (bs.foldl f h).length = k
  | [], _, hh => hh
  | b :: bs, h, _ => foldl_length_inv f k hf bs (f h b) (hf h b)

theorem sha1_length (msg : List Nat) : (sha1 msg).length = 20 := by
  unfold sha1
  rw [wordsToBytes_length,
    foldl_length_inv sha1Compress 5 sha1Compress_length _ sha1H0 rfl]

theorem sha256_length (msg : List Nat) : (sha256 msg).length = 32 := by
  unfold sha256
  rw [wordsToBytes_length,
    foldl_length_inv sha256Compress 8 sha256Compress_length _ sha256H0 rfl]

theorem sha512_length (msg : List Nat) : (sha512 msg).length = 64 := by
  unfold sha512
  rw [wordsToBytes_length,
    foldl_length_inv sha512Compress 8 sha512Compress_length _ sha512H0 rfl]

theorem hmac_length (hash : List Nat → List Nat) (bs k : Nat)
    (hh : ∀ m, (hash m).length = k) (key msg : List Nat) :
    (hmac hash bs key msg).length = k := by
  unfold hmac
  exact hh _

theorem hmacDigest_length (alg : Algorithm) (key msg : List Nat) :
    (hmacDigest alg key msg).length = hashLength alg := by
  cases alg
  · exact hmac_length sha1 64 20 sha1_length key msg
  · exact hmac_length sha256 64 32 sha256_length key msg
  · exact hmac_length sha512 128 64 sha512_length key msg

/-- Bound for the 31-bit value extracted by dynamic truncation, for any
digest whatsoever: the masks alone force it below 2^31. -/
theorem dynamicTruncate_lt (hl : List Nat) : dynamicTruncate hl < 2 ^ 31 := by
  unfold dynamicTruncate
  have h1 : hl.getD (truncOffset hl) 0 &&& 0x7F < 2 ^ 7 :=
    Nat.and_lt_two_pow _ (by norm_num)
  have h2 : hl.getD (truncOffset hl + 1) 0 &&& 0xFF < 2 ^ 8 :=
    Nat.and_lt_two_pow _ (by norm_num)
  have h3 : hl.getD (truncOffset hl + 2) 0 &&& 0xFF < 2 ^ 8 :=
    Nat.and_lt_two_pow _ (by norm_num)
  have h4 : hl.getD (truncOffset hl + 3) 0 &&& 0xFF < 2 ^ 8 :=
    Nat.and_lt_two_pow _ (by norm_num)
  rw [Nat.shiftLeft_eq, Nat.shiftLeft_eq, Nat.shiftLeft_eq]
  refine Nat.or_lt_two_pow (Nat.or_lt_two_pow (Nat.or_lt_two_pow ?_ ?_) ?_) ?_
  · have : (hl.getD (truncOffset hl) 0 &&& 0x7F) * 2 ^ 24 < 2 ^ 7 * 2 ^ 24 :=
      Nat.mul_lt_mul_of_lt_of_le h1 (le_refl _) (by norm_num)
    omega
  · have : (hl.getD (truncOffset hl + 1) 0 &&& 0xFF) * 2 ^ 16 < 2 ^ 8 * 2 ^ 16 :=
      Nat.mul_lt_mul_of_lt_of_le h2 (le_refl _) (by norm_num)
    omega
  · have : (hl.getD (truncOffset hl + 2) 0 &&& 0xFF) * 2 ^ 8 < 2 ^ 8 * 2 ^ 8 :=
      Nat.mul_lt_mul_of_lt_of_le h3 (le_refl _) (by norm_num)
    omega
  · omega

/-- C7: for every digest an HMAC with a supported algorithm produces, the
dynamic-truncation offset is at most 15, the four byte reads stay within
the digest, and the extracted integer is below 2^31 (hence non-negative as
a 31-bit value). -/
theorem truncation_within_bounds (alg : Algorithm) (key msg : List Nat) :
    truncOffset (hmacDigest alg key msg) ≤ 15 ∧
    truncOffset (hmacDigest alg key msg) + 3 < (hmacDigest alg key msg).length ∧
    dynamicTruncate (hmacDigest alg key msg) < 2 ^ 31 := by
  refine ⟨Nat.and_le_right, ?_, dynamicTruncate_lt _⟩
  have hoff : truncOffset (hmacDigest alg key msg) ≤ 15 := Nat.and_le_right
  have hlen := hmacDigest_length alg key msg
  cases alg <;> simp [hashLength] at hlen <;> omega

/-- C8: `hotp` is a pure function of its four inputs — two calls on
identical inputs return identical strings. -/
theorem hotp_deterministic (s₁ s₂ : List Nat) (c₁ c₂ : Int)
    (a₁ a₂ : Algorithm) (d₁ d₂ : Nat)
    (hs : s₁ = s₂) (hc : c₁ = c₂) (ha : a₁ = a₂) (hd : d₁ = d₂) :
    hotp s₁ c₁ a₁ d₁ = hotp s₂ c₂ a₂ d₂ := by
  subst hs
  subst hc
  subst ha
  subst hd
  rfl

theorem hotp_deterministic_witness :
    hotp rfcSecret20 3 Algorithm.SHA1 6 = hotp rfcSecret20 3 Algorithm.SHA1 6 :=
  hotp_deterministic rfcSecret20 rfcSecret20 3 3 Algorithm.SHA1 Algorithm.SHA1
    6 6 rfl rfl rfl rfl

/-- C10: with `digits = 0` no error is raised; the truncated value is
reduced modulo `10^0 = 1`, giving code `0`, and `padStart` to width 0
leaves `"0"` unchanged, so the result is the one-character string "0". -/
theorem hotp_digits_zero_returns_zero_string (secret : List Nat)
    (counter : Int) (alg : Algorithm) :
    hotp secret counter alg 0 = "0" := by
  show padStart
    (decToString
      (dynamicTruncate (hmacDigest alg secret (counterBytes counter)) % 10 ^ 0))
    0 '0' = "0"
  rw [pow_zero, Nat.mod_one]
  rfl

/-- C2: `totp` delegates to `hotp` with counter
`floor(floor(timestamp_ms / 1000) / period)` — the timestamp argument is
taken in milliseconds. -/
theorem totp_counter_from_milliseconds (secret : List Nat) (alg : Algorithm)
    (digits period timestamp : Nat) (_hp : 1 ≤ period) :
    totp secret alg digits period timestamp =
      hotp secret (Int.ofNat (timestamp / 1000 / period)) alg digits := rfl

theorem totp_counter_from_milliseconds_witness :
    1 ≤ 30 ∧
    totp rfcSecret20 Algorithm.SHA1 8 30 59000 =
      hotp rfcSecret20 (Int.ofNat (59000 / 1000 / 30)) Algorithm.SHA1 8 :=
  ⟨by decide,
    totp_counter_from_milliseconds rfcSecret20 Algorithm.SHA1 8 30 59000 (by decide)⟩

/-- C6, as amended: the code performs no parameter validation.  With
`period = 0` no `InvalidPeriod` error is raised: `totp` produces exactly
the string `hotp` gives for counter 0 (in JavaScript the division yields an
infinite or NaN counter whose 8-byte encoding is all zeros, the encoding of
counter 0). -/
theorem totp_period_zero_no_error (secret : List Nat) (alg : Algorithm)
    (digits timestamp : Nat) :
    totp secret alg digits 0 timestamp = hotp secret 0 alg digits := by
  unfold totp
  norm_num

/-- C6 counterexample: `hotp` called with `digits = 0` does not raise the
`InvalidDigits` validation error; it completes the HMAC computation and
returns the string "0". -/
theorem hotp_digits_zero_counterexample :
    hotp rfcSecret20 0 Algorithm.SHA1 0 = "0" ∧
    (hotp rfcSecret20 0 Algorithm.SHA1 0).length = 1 := by
  have h : hotp rfcSecret20 0 Algorithm.SHA1 0 = "0" := by
    show padStart
      (decToString
        (dynamicTruncate (hmacDigest Algorithm.SHA1 rfcSecret20 (counterBytes 0)) % 10 ^ 0))
      0 '0' = "0"
    rw [pow_zero, Nat.mod_one]
    rfl
  exact ⟨h, by rw [h]; rfl⟩

end Otpx

namespace Otpx

/-! The JavaScript counter-encoding loop, analysed exactly. -/

theorem toInt32_ofNat (c : Nat) (h : c < 2 ^ 31) :
    toInt32 (Int.ofNat c) = Int.ofNat c := by
  unfold toInt32
  simp only [Int.ofNat_eq_natCast]
  omega

theorem jsAnd255_ofNat (c : Nat) (h : c < 2 ^ 31) :
    jsAnd255 (Int.ofNat c) = c % 256 := by
  unfold jsAnd255
  rw [toInt32_ofNat c h]
  simp only [Int.ofNat_eq_natCast]
  omega

theorem jsShr8_ofNat (c : Nat) (h : c < 2 ^ 31) :
    jsShr8 (Int.ofNat c) = Int.ofNat (c / 256) := by
  unfold jsShr8
  rw [toInt32_ofNat c h]
  exact (Int.ofNat_fdiv c 256).symm

theorem counterBytesAux_ofNat :
    ∀ (n c : Nat), c < 2 ^ 31 →
      counterBytesAux n (Int.ofNat c) =
        (List.range n).map fun k => c / 256 ^ (n - 1 - k) % 256
  | 0, c, _ => rfl
  | n + 1, c, hc => by
      have hdiv : c / 256 < 2 ^ 31 := lt_of_le_of_lt (Nat.div_le_self c 256) hc
      show counterBytesAux n (jsShr8 (Int.ofNat c)) ++ [jsAnd255 (Int.ofNat c)] = _
      rw [jsShr8_ofNat c hc, jsAnd255_ofNat c hc,
        counterBytesAux_ofNat n (c / 256) hdiv, List.range_succ, List.map_append]
      congr 1
      · apply List.map_congr_left
        intro k hk
        rw [List.mem_range] at hk
        rw [Nat.div_div_eq_div_mul]
        congr 2
        rw [← pow_succ']
        congr 1
        omega
      · simp

/-- C9: on `[0, 2^31)` the encoder is the RFC big-endian encoding — bytes
0 to 3 are zero and byte `i` is `c / 2^(8*(7-i)) mod 256`.  (This is the
range on which the signed 32-bit shift used by the loop is harmless.) -/
theorem counterBytes_correct_below_2_pow_31 (c : Nat) (h : c < 2 ^ 31) :
    counterBytes (Int.ofNat c) =
      [0, 0, 0, 0, c / 2 ^ 24 % 256, c / 2 ^ 16 % 256, c / 2 ^ 8 % 256, c % 256] ∧
    ∀ i, i < 8 → (counterBytes (Int.ofNat c)).getD i 0 = c / 2 ^ (8 * (7 - i)) % 256 := by
  have hlist : counterBytes (Int.ofNat c) =
      [c / 256 ^ 7 % 256, c / 256 ^ 6 % 256, c / 256 ^ 5 % 256, c / 256 ^ 4 % 256,
       c / 256 ^ 3 % 256, c / 256 ^ 2 % 256, c / 256 ^ 1 % 256, c / 256 ^ 0 % 256] := by
    rw [show counterBytes (Int.ofNat c) = counterBytesAux 8 (Int.ofNat c) from rfl,
      counterBytesAux_ofNat 8 c h]
    rfl
  constructor
  · rw [hlist]
    norm_num
    omega
  · intro i hi
    rw [hlist]
    interval_cases i <;> simp

theorem counterBytes_correct_below_2_pow_31_witness :
    (424242 : Nat) < 2 ^ 31 ∧
    counterBytes (Int.ofNat 424242) =
      [0, 0, 0, 0, 424242 / 2 ^ 24 % 256, 424242 / 2 ^ 16 % 256,
       424242 / 2 ^ 8 % 256, 424242 % 256] :=
  ⟨by norm_num, (counterBytes_correct_below_2_pow_31 424242 (by norm_num)).1⟩

/-- C5 fails on the code: at counter `2^31` the signed 32-bit shift
sign-extends, filling bytes 0-3 with `0xFF`, whereas the RFC big-endian
encoding of `2^31` is `[0, 0, 0, 0, 0x80, 0, 0, 0]` (in particular byte 3
should be `2^31 / 2^(8*(7-3)) mod 256 = 0`, not 255). -/
theorem counterBytes_sign_extension_at_2_pow_31 :
    counterBytes (Int.ofNat (2 ^ 31)) = [255, 255, 255, 255, 128, 0, 0, 0] ∧
    (2 : Nat) ^ 31 / 2 ^ (8 * (7 - 3)) % 256 = 0 ∧
    counterBytes (Int.ofNat (2 ^ 31)) ≠ [0, 0, 0, 0, 128, 0, 0, 0] := by
  refine ⟨by decide, by norm_num, ?_⟩
  intro hcontra
  have : counterBytes (Int.ofNat (2 ^ 31)) = [255, 255, 255, 255, 128, 0, 0, 0] := by decide
  rw [this] at hcontra
  simp at hcontra

end Otpx

namespace Otpx

/-! The decimal formatter: `code.toString().padStart(digits, "0")`. -/

theorem digitChar_isDigit (d : Nat) : (digitChar d).isDigit = true := by
  unfold digitChar
  have hk : d % 10 < 10 := Nat.mod_lt d (by omega)
  set k := d % 10 with hk_def
  interval_cases k <;> decide

theorem digitChar_toNat (d : Nat) : (digitChar d).toNat = 48 + d % 10 := by
  unfold digitChar
  have hk : d % 10 < 10 := Nat.mod_lt d (by omega)
  set k := d % 10 with hk_def
  interval_cases k <;> decide

theorem decDigitsAux_isDigit :
    ∀ (fuel n : Nat) (c : Char), c ∈ decDigitsAux fuel n → c.isDigit = true
  | 0, n, c, h => absurd h (List.not_mem_nil c)
  | fuel + 1, n, c, h => by
      by_cases h10 : n < 10
      · simp [decDigitsAux, h10] at h
        rw [h]
        exact digitChar_isDigit n
      · simp [decDigitsAux, h10] at h
        rcases h with h | h
        · exact decDigitsAux_isDigit fuel (n / 10) c h
        · rw [h]
          exact digitChar_isDigit (n % 10)

theorem decDigitsAux_length_le :
    ∀ (fuel n d : Nat), n < fuel → n < 10 ^ d → 1 ≤ d →
      (decDigitsAux fuel n).length ≤ d
  | 0, n, _, hf, _, _ => absurd hf (Nat.not_lt_zero n)
  | fuel + 1, n, d, hf, hpow, hd => by
      by_cases h10 : n < 10
      · simp [decDigitsAux, h10]
        exact hd
      · have hd2 : 2 ≤ d := by
          rcases Nat.lt_or_ge d 2 with h | h
          · interval_cases d
            simp_all
            omega
          · exact h
        have h1 : n / 10 < 10 ^ (d - 1) := by
          rw [Nat.div_lt_iff_lt_mul (by norm_num)]
          calc n < 10 ^ d := hpow
            _ = 10 ^ (d - 1) * 10 := by
                rw [← pow_succ]
                congr 1
                omega
        have h2 := decDigitsAux_length_le fuel (n / 10) (d - 1) (by omega) h1 (by omega)
        simp [decDigitsAux, h10]
        omega

theorem decValue_append_digit (l : List Char) (c : Char) :
    decValue (l ++ [c]) = 10 * decValue l + (c.toNat - 48) := by
  unfold decValue
  rw [List.foldl_append]
  rfl

theorem decValue_decDigitsAux :
    ∀ (fuel n : Nat), n < fuel → decValue (decDigitsAux fuel n) = n
  | 0, n, hf => absurd hf (Nat.not_lt_zero n)
  | fuel + 1, n, hf => by
      by_cases h10 : n < 10
      · simp [decDigitsAux, h10, decValue, digitChar_toNat]
      · simp only [decDigitsAux, h10, if_false]
        rw [decValue_append_digit,
          decValue_decDigitsAux fuel (n / 10) (by omega), digitChar_toNat]
        omega

theorem decValue_replicate_zero :
    ∀ (m : Nat) (l : List Char), decValue (List.replicate m '0' ++ l) = decValue l
  | 0, l => rfl
  | m + 1, l => by
      rw [List.replicate_succ, List.cons_append]
      show decValue (List.replicate m '0' ++ l) = decValue l
      exact decValue_replicate_zero m l

/-- C4: for every valid input with `digits >= 1`, the `hotp` output has
length exactly `digits`, consists of decimal digit characters only,
denotes a value below `10^digits`, and is that value's decimal string
left-padded with '0'. -/
theorem hotp_output_fixed_width (secret : List Nat) (counter : Int)
    (alg : Algorithm) (digits : Nat) (hd : 1 ≤ digits) :
    (hotp secret counter alg digits).length = digits ∧
    (∀ c ∈ (hotp secret counter alg digits).data, c.isDigit = true) ∧
    decValue (hotp secret counter alg digits).data < 10 ^ digits ∧
    hotp secret counter alg digits =
      padStart (decToString (decValue (hotp secret counter alg digits).data))
        digits '0' := by
  have hrepr : hotp secret counter alg digits =
      padStart
        (decToString
          (dynamicTruncate (hmacDigest alg secret (counterBytes counter)) % 10 ^ digits))
        digits '0' := rfl
  set code :=
    dynamicTruncate (hmacDigest alg secret (counterBytes counter)) % 10 ^ digits
    with hcode_def
  have hcode : code < 10 ^ digits :=
    Nat.mod_lt _ (Nat.pos_pow_of_pos digits (by omega))
  have hlen_le : (decDigitsAux (code + 1) code).length ≤ digits :=
    decDigitsAux_length_le (code + 1) code digits (Nat.lt_succ_self code) hcode hd
  have hdata : (hotp secret counter alg digits).data =
      List.replicate (digits - (decDigitsAux (code + 1) code).length) '0' ++
        decDigitsAux (code + 1) code := by
    rw [hrepr]
    rfl
  have hval : decValue (hotp secret counter alg digits).data = code := by
    rw [hdata, decValue_replicate_zero,
      decValue_decDigitsAux (code + 1) code (Nat.lt_succ_self code)]
  refine ⟨?_, ?_, ?_, ?_⟩
  · have : (hotp secret counter alg digits).length =
        (hotp secret counter alg digits).data.length := rfl
    rw [this, hdata]
    simp [List.length_append, List.length_replicate]
    omega
  · intro c hc
    rw [hdata] at hc
    rcases List.mem_append.mp hc with h | h
    · rw [List.eq_of_mem_replicate h]
      decide
    · exact decDigitsAux_isDigit (code + 1) code c h
  · rw [hval]
    exact hcode
  · rw [hval, hrepr]

theorem hotp_output_fixed_width_witness :
    1 ≤ 6 ∧
    (hotp rfcSecret20 5 Algorithm.SHA1 6).length = 6 ∧
    (∀ c ∈ (hotp rfcSecret20 5 Algorithm.SHA1 6).data, c.isDigit = true) ∧
    decValue (hotp rfcSecret20 5 Algorithm.SHA1 6).data < 10 ^ 6 ∧
    hotp rfcSecret20 5 Algorithm.SHA1 6 =
      padStart (decToString (decValue (hotp rfcSecret20 5 Algorithm.SHA1 6).data))
        6 '0' :=
  ⟨by decide, hotp_output_fixed_width rfcSecret20 5 Algorithm.SHA1 6 (by decide)⟩

end Otpx

namespace Otpx

set_option maxHeartbeats 400000000
set_option maxRecDepth 10000000

/-- C1: the RFC 4226 test vectors — ASCII secret "12345678901234567890",
SHA1, 6 digits, counters 0 through 9. -/
theorem hotp_rfc4226_vectors :
    hotp rfcSecret20 0 Algorithm.SHA1 6 = "755224" ∧
    hotp rfcSecret20 1 Algorithm.SHA1 6 = "287082" ∧
    hotp rfcSecret20 2 Algorithm.SHA1 6 = "359152" ∧
    hotp rfcSecret20 3 Algorithm.SHA1 6 = "969429" ∧
    hotp rfcSecret20 4 Algorithm.SHA1 6 = "338314" ∧
    hotp rfcSecret20 5 Algorithm.SHA1 6 = "254676" ∧
    hotp rfcSecret20 6 Algorithm.SHA1 6 = "287922" ∧
    hotp rfcSecret20 7 Algorithm.SHA1 6 = "162583" ∧
    hotp rfcSecret20 8 Algorithm.SHA1 6 = "399871" ∧
    hotp rfcSecret20 9 Algorithm.SHA1 6 = "520489" := by
  refine ⟨?_, ?_, ?_, ?_, ?_, ?_, ?_, ?_, ?_, ?_⟩ <;> decide

/-- C3: the RFC 6238 test vectors at timestamp 59000 ms (59 s), period 30,
8 digits, for SHA1, SHA256 and SHA512 with their respective secrets. -/
theorem totp_rfc6238_vectors :
    totp rfcSecret20 Algorithm.SHA1 8 30 59000 = "94287082" ∧
    totp rfcSecret32 Algorithm.SHA256 8 30 59000 = "46119246" ∧
    totp rfcSecret64 Algorithm.SHA512 8 30 59000 = "90693936" := by
  refine ⟨?_, ?_, ?_⟩ <;> decide

end Otpx
